import Mathlib

/-!
Verification development for the mcp-ui in-iframe adapter runtime.

The adapter is a message-translation engine embedded in widget HTML.  It
intercepts a uniform widget-facing messaging protocol and maps it onto two
host families: the JSON-RPC family (MCP Apps) and the imperative capability
family (Apps SDK, via a global capability object).  The runtime source is
injected as a bundled script; the definitions below embed its behavior as
Lean functions and state machines, and the theorems settle the specified
properties against this embedding.
-/

namespace McpUi

/-- A JSON value, as carried by message payloads and parameters. -/
inductive JVal where
  | null
  | bool (b : Bool)
  | num (n : Int)
  | str (s : String)
  | arr (xs : List JVal)
  | obj (fields : List (String × JVal))
deriving Repr, Inhabited

namespace JVal

/-- Look up a field of a JSON object (first occurrence wins). -/
def getField : JVal → String → Option JVal
  | .obj fields, k => (fields.find? (fun p => p.1 == k)).map Prod.snd
  | _, _ => none

/-- Extract a string field of a JSON object, if present and a string. -/
def getStr (v : JVal) (k : String) : Option String :=
  match v.getField k with
  | some (.str s) => some s
  | _ => none

/-- Extract a numeric field of a JSON object, if present and a number. -/
def getNum (v : JVal) (k : String) : Option Int :=
  match v.getField k with
  | some (.num n) => some n
  | _ => none

end JVal

/-- Error payloads dispatched to the widget are shaped as a message with an
optional error name, distinguishing timeouts from host-reported failures. -/
structure ErrorPayload where
  message : String
  name : Option String
deriving Repr, DecidableEq

/-- The RenderState cache: the latest known tool input/output, widget state,
and host context. Mutated field-by-field; read when answering queries. -/
structure RenderData where
  toolInput : Option JVal := none
  toolOutput : Option JVal := none
  widgetState : Option JVal := none
  locale : Option String := none
  theme : Option String := none
  displayMode : Option String := none
  maxHeight : Option Int := none
deriving Repr, Inhabited

/-- Messages the adapter dispatches to the widget (the uniform protocol,
adapter-to-widget direction). -/
inductive WidgetEvent where
  /-- type `ui-message-received`: immediate acknowledgement of an action. -/
  | messageReceived (messageId : String)
  /-- type `ui-message-response`: terminal settlement of an action, carrying
  either a response value or an error payload. -/
  | messageResponse (messageId : String) (response : Option JVal)
      (error : Option ErrorPayload)
  /-- type `ui-lifecycle-iframe-render-data`: a full RenderState dispatch,
  optionally echoing a requesting messageId. -/
  | renderData (messageId : Option String) (rd : RenderData)
  /-- type `ui-lifecycle-teardown`. -/
  | teardown
  /-- type `ui-lifecycle-tool-cancelled`, carrying the reason. -/
  | toolCancelled (reason : Option String)
deriving Repr

/-- Action and lifecycle messages the widget sends into the adapter (the
uniform protocol, widget-to-adapter direction). -/
inductive WidgetMsg where
  | tool (messageId : String) (toolName : String) (params : JVal)
  | prompt (messageId : String) (prompt : String)
  | intent (messageId : String) (intent : String) (params : JVal)
  | link (messageId : String) (url : String)
  | notify (messageId : String) (message : String)
  | sizeChange (width : Int) (height : Int)
  | requestRenderData (messageId : String)
  | iframeReady
deriving Repr

/-! ## Capability family (Apps SDK adapter)

Modelled from the spec: the Apps SDK adapter runtime
(`sdks/typescript/server/src/adapters/appssdk/adapter.ts`, injected as the
bundled script returned by `getAppsSdkAdapterScript`) is not present in this
tree; only its behavioral tests are.  The definitions in this section model
it from §4.3, §4.4, §6 and §7 of the specification. -/

/-- Install-time adapter configuration: immutable once installed.
`timeout` defaults to 30000ms; `intentHandling` defaults to `"prompt"`. -/
structure AppsSdkAdapterConfig where
  timeout : Nat := 30000
  intentHandling : String := "prompt"
  hostOrigin : Option String := none
deriving Repr

/-- The settlement behavior of a promise returned by a host capability:
it resolves with a value at some time (ms), rejects with a message at some
time, or never settles. -/
inductive PromiseOutcome where
  | resolved (v : JVal) (t : Nat)
  | rejected (msg : String) (t : Nat)
  | pendingForever
deriving Repr

/-- The host capability object (`window.openai`): promise-returning
operations, which may individually be absent, plus passively-readable
state fields. -/
structure OpenAiApi where
  callTool : Option (String → JVal → PromiseOutcome) := none
  sendFollowUpMessage : Option (JVal → PromiseOutcome) := none
  toolInput : Option JVal := none
  toolOutput : Option JVal := none
  widgetState : Option JVal := none
  locale : Option String := none
  theme : Option String := none
  displayMode : Option String := none
  maxHeight : Option Int := none

/-- A widget-bound dispatch, stamped with the time (ms after the triggering
widget message arrived) at which the adapter emits it. -/
structure TimedEvent where
  ev : WidgetEvent
  time : Nat
deriving Repr

/-- Everything the capability-family adapter does in reaction to one widget
message: which host capabilities it invoked, with what arguments, and what
it dispatched back to the widget. -/
structure CapReaction where
  toolCalls : List (String × JVal) := []
  followUpCalls : List JVal := []
  dispatched : List TimedEvent := []
deriving Repr

/-- Modelled from the spec: reading all current capability-object fields
into RenderState, applying the documented defaults when unset:
locale `"en-US"`, theme `"light"`, displayMode `"inline"`. -/
def readRenderData (oai : OpenAiApi) : RenderData :=
  { toolInput := oai.toolInput
    toolOutput := oai.toolOutput
    widgetState := oai.widgetState
    locale := some (oai.locale.getD "en-US")
    theme := some (oai.theme.getD "light")
    displayMode := some (oai.displayMode.getD "inline")
    maxHeight := oai.maxHeight }

/-- The timeout error dispatched when a pending call exceeds the configured
duration; the message mentions the timeout condition. -/
def timeoutError : ErrorPayload :=
  { message := "Request timed out", name := some "TimeoutError" }

/-- The UnsupportedCapability error for an action with no mapping in the
active family; surfaced as a `message-response` error, never thrown. -/
def unsupportedError (what : String) : ErrorPayload :=
  { message := what ++ " is not supported by this host", name := some "UnsupportedCapability" }

/-- Modelled from the spec: racing a capability promise against the
configured timeout. The host settlement wins if it occurs strictly before
the timeout elapses; otherwise the timeout error is dispatched exactly when
the configured duration has elapsed, and the underlying promise is
abandoned. On success the given mapping shapes the response value. -/
def settleRace (cfg : AppsSdkAdapterConfig) (mid : String)
    (onSuccess : JVal → JVal) : PromiseOutcome → TimedEvent
  | .resolved v t =>
      if t < cfg.timeout then
        { ev := .messageResponse mid (some (onSuccess v)) none, time := t }
      else
        { ev := .messageResponse mid none (some timeoutError), time := cfg.timeout }
  | .rejected msg t =>
      if t < cfg.timeout then
        { ev := .messageResponse mid none (some { message := msg, name := none }), time := t }
      else
        { ev := .messageResponse mid none (some timeoutError), time := cfg.timeout }
  | .pendingForever =>
      { ev := .messageResponse mid none (some timeoutError), time := cfg.timeout }

/-- Modelled from the spec: the prompt text synthesized for an intent under
`intentHandling = "prompt"`, embedding the intent name and parameters. -/
def intentPromptText (intent : String) (params : JVal) : String :=
  "The user triggered the intent " ++ intent ++ " with parameters " ++ reprStr params

/-- Modelled from the spec (§4.3): the capability-family translation of one
widget message.  Every outbound action yields a `message-received` ack
followed by exactly one `message-response` (success, error, or timeout).
tool invokes the tool-call capability; prompt invokes the follow-up-message
capability; intent is governed by `intentHandling`; notify is answered
locally; link is always an UnsupportedCapability error; size changes are
best-effort no-ops; render-data requests are answered synchronously from
the capability object's current fields. -/
def handleAppsSdkMessage (cfg : AppsSdkAdapterConfig) (oai : OpenAiApi) :
    WidgetMsg → CapReaction
  | .tool mid name params =>
      match oai.callTool with
      | none =>
          { dispatched := [⟨.messageReceived mid, 0⟩,
              ⟨.messageResponse mid none (some (unsupportedError "callTool")), 0⟩] }
      | some f =>
          { toolCalls := [(name, params)]
            dispatched := [⟨.messageReceived mid, 0⟩,
              settleRace cfg mid (fun v => v) (f name params)] }
  | .prompt mid p =>
      match oai.sendFollowUpMessage with
      | none =>
          { dispatched := [⟨.messageReceived mid, 0⟩,
              ⟨.messageResponse mid none (some (unsupportedError "sendFollowUpMessage")), 0⟩] }
      | some f =>
          let arg := JVal.obj [("prompt", .str p)]
          { followUpCalls := [arg]
            dispatched := [⟨.messageReceived mid, 0⟩,
              settleRace cfg mid (fun _ => .obj [("success", .bool true)]) (f arg)] }
  | .intent mid intentName params =>
      if cfg.intentHandling == "ignore" then
        { dispatched := [⟨.messageReceived mid, 0⟩,
            ⟨.messageResponse mid (some (.obj [("ignored", .bool true)])) none, 0⟩] }
      else
        match oai.sendFollowUpMessage with
        | none =>
            { dispatched := [⟨.messageReceived mid, 0⟩,
                ⟨.messageResponse mid none (some (unsupportedError "sendFollowUpMessage")), 0⟩] }
        | some f =>
            let arg := JVal.obj [("prompt", .str (intentPromptText intentName params))]
            { followUpCalls := [arg]
              dispatched := [⟨.messageReceived mid, 0⟩,
                settleRace cfg mid (fun _ => .obj [("success", .bool true)]) (f arg)] }
  | .notify mid _ =>
      { dispatched := [⟨.messageReceived mid, 0⟩,
          ⟨.messageResponse mid (some (.obj [("acknowledged", .bool true)])) none, 0⟩] }
  | .link mid _ =>
      { dispatched := [⟨.messageReceived mid, 0⟩,
          ⟨.messageResponse mid none (some (unsupportedError "Opening links")), 0⟩] }
  | .sizeChange _ _ => {}
  | .requestRenderData mid =>
      { dispatched := [⟨.renderData (some mid) (readRenderData oai), 0⟩] }
  | .iframeReady =>
      { dispatched := [⟨.renderData none (readRenderData oai), 0⟩] }

/-- Modelled from the spec: install of the capability-family adapter. If the
capability object is absent the adapter does not activate at all — it
dispatches nothing, raises no error, leaves no state. If present, it reads
all current fields into RenderState and dispatches an initial render-data
message. -/
def installAppsSdkAdapter (_cfg : AppsSdkAdapterConfig) (oai : Option OpenAiApi) :
    Bool × List WidgetEvent :=
  match oai with
  | none => (false, [])
  | some o => (true, [.renderData none (readRenderData o)])

/-- Modelled from the spec: on each firing of the host's change-notification
event, the adapter re-reads all capability fields and redispatches full
render data. -/
def onSetGlobals (oai : OpenAiApi) : List WidgetEvent :=
  [.renderData none (readRenderData oai)]

/-! ## JSON-RPC family (MCP Apps adapter)

Modelled from the spec: the MCP Apps adapter runtime
(`sdks/typescript/server/src/adapters/mcp-apps/adapter.ts`, injected as the
bundled script returned by `getMcpAppsAdapterScript`) is not present in this
tree; only its behavioral tests are.  The definitions in this section model
it from §4.2, §4.4 and §7 of the specification. -/

/-- Install-time configuration of the JSON-RPC family adapter. -/
structure McpAppsAdapterConfig where
  timeout : Nat := 30000
deriving Repr

/-- The protocol version carried by the initialization handshake. -/
def PROTOCOL_VERSION : String := "2025-11-21"

/-- JSON-RPC traffic on the adapter-to-host channel: requests carry an id,
notifications do not, responses carry a result or an error. -/
inductive HostMsg where
  | request (jsonrpc : String) (id : Nat) (method : String) (params : JVal)
  | notif (jsonrpc : String) (method : String) (params : JVal)
  | response (jsonrpc : String) (id : Nat) (result : Option JVal) (error : Option JVal)
deriving Repr

/-- The handshake state machine: UNINITIALIZED → INITIALIZING → READY.
While initializing, the id of the outstanding `ui/initialize` request is
remembered so the matching response can be recognized. -/
inductive HandshakePhase where
  | uninitialized
  | initializing (initId : Nat)
  | ready
deriving Repr, DecidableEq

/-- The JSON-RPC family adapter's session state: a monotonically increasing
request id, the pending-request table (request id ↦ widget messageId), the
RenderState cache, and the handshake phase. -/
structure McpAppsState where
  nextId : Nat := 0
  pendingRequests : List (Nat × String) := []
  renderState : RenderData := {}
  phase : HandshakePhase := .uninitialized
deriving Repr

/-- One reaction of the JSON-RPC family adapter: the successor state plus
the messages sent to the host and dispatched to the widget. -/
structure McpAppsReaction where
  state : McpAppsState
  toHost : List HostMsg := []
  toWidget : List WidgetEvent := []
deriving Repr

/-- The params of the `ui/initialize` request: app identity, empty
capability set, and protocol version. -/
def initializeParams : JVal :=
  .obj [("appInfo", .obj [("name", .str "mcp-ui-adapter"), ("version", .str "1.0.0")]),
        ("appCapabilities", .obj []),
        ("protocolVersion", .str PROTOCOL_VERSION)]

/-- Modelled from the spec: install sends the `ui/initialize` request and
enters the INITIALIZING phase, remembering the request's id. -/
def installMcpAppsAdapter (_cfg : McpAppsAdapterConfig) : McpAppsState × List HostMsg :=
  ({ nextId := 1, pendingRequests := [], renderState := {}, phase := .initializing 0 },
   [.request "2.0" 0 "ui/initialize" initializeParams])

/-- The `ui/message` params for a user prompt: role user, content a single
text block. -/
def promptParams (text : String) : JVal :=
  .obj [("role", .str "user"),
        ("content", .arr [.obj [("type", .str "text"), ("text", .str text)]])]

/-- Modelled from the spec: the `ui/message` content text synthesized for an
intent, embedding the intent name and parameters. -/
def intentMessageText (intent : String) (params : JVal) : String :=
  "Intent: " ++ intent ++ " with parameters " ++ reprStr params

/-- Modelled from the spec (§4.2, outbound table): translation of one widget
message into JSON-RPC host traffic.  Requestful actions (tool, prompt,
intent, link) produce an immediate `message-received` ack plus a new
PendingRequest under a fresh monotonically increasing id;
notification-only actions (notify, ui-size-change) produce a JSON-RPC
notification.  Render-data requests are answered synchronously from the
current RenderState with no host round trip.  Action traffic flows only
once the handshake has made the link ready. -/
def handleMCPUIMessage (_cfg : McpAppsAdapterConfig) (st : McpAppsState) :
    WidgetMsg → McpAppsReaction
  | .tool mid name params =>
      if st.phase = .ready then
        let st' := { st with nextId := st.nextId + 1
                             pendingRequests := (st.nextId, mid) :: st.pendingRequests }
        { state := st'
          toHost := [.request "2.0" st.nextId "tools/call"
                       (.obj [("name", .str name), ("arguments", params)])]
          toWidget := [.messageReceived mid] }
      else { state := st }
  | .prompt mid p =>
      if st.phase = .ready then
        let st' := { st with nextId := st.nextId + 1
                             pendingRequests := (st.nextId, mid) :: st.pendingRequests }
        { state := st'
          toHost := [.request "2.0" st.nextId "ui/message" (promptParams p)]
          toWidget := [.messageReceived mid] }
      else { state := st }
  | .intent mid intentName params =>
      if st.phase = .ready then
        let st' := { st with nextId := st.nextId + 1
                             pendingRequests := (st.nextId, mid) :: st.pendingRequests }
        { state := st'
          toHost := [.request "2.0" st.nextId "ui/message"
                       (promptParams (intentMessageText intentName params))]
          toWidget := [.messageReceived mid] }
      else { state := st }
  | .link mid url =>
      if st.phase = .ready then
        let st' := { st with nextId := st.nextId + 1
                             pendingRequests := (st.nextId, mid) :: st.pendingRequests }
        { state := st'
          toHost := [.request "2.0" st.nextId "ui/open-link" (.obj [("url", .str url)])]
          toWidget := [.messageReceived mid] }
      else { state := st }
  | .notify _ message =>
      if st.phase = .ready then
        { state := st
          toHost := [.notif "2.0" "notifications/message"
                       (.obj [("level", .str "info"), ("data", .str message)])] }
      else { state := st }
  | .sizeChange w h =>
      if st.phase = .ready then
        { state := st
          toHost := [.notif "2.0" "ui/notifications/size-changed"
                       (.obj [("width", .num w), ("height", .num h)])] }
      else { state := st }
  | .requestRenderData mid =>
      { state := st, toWidget := [.renderData (some mid) st.renderState] }
  | .iframeReady =>
      { state := st, toWidget := [.renderData none st.renderState] }

/-- Last-write-wins for a single RenderState field: an incoming value
replaces the current one, an absent incoming value keeps the most recently
observed value (per-field merge, never a blanket overwrite). -/
def mergeField {α : Type} (incoming : Option α) (current : Option α) : Option α :=
  match incoming with
  | some v => some v
  | none => current

/-- Modelled from the spec: merging a host-context object into RenderState,
field by field via `mergeField`. -/
def applyHostContext (rd : RenderData) (ctx : JVal) : RenderData :=
  { rd with
    theme := mergeField (ctx.getStr "theme") rd.theme
    locale := mergeField (ctx.getStr "locale") rd.locale
    displayMode := mergeField (ctx.getStr "displayMode") rd.displayMode
    maxHeight := mergeField (ctx.getNum "maxHeight") rd.maxHeight }

/-- Converts a JSON-RPC error object into the widget-facing error payload,
forwarding the host-reported message. -/
def errorOfJson (e : JVal) : ErrorPayload :=
  { message := (e.getStr "message").getD "Unknown error", name := none }

/-- Modelled from the spec (§4.2, inbound): translation of one host message.
tool-input, tool-input-partial and tool-result notifications merge their
payload into RenderState and trigger a full render-data dispatch, as does
host-context-changed; a teardown request dispatches teardown and
immediately acknowledges the host; a tool-cancelled notification forwards
the reason; a response whose id matches the outstanding initialize request
completes the handshake (capturing host context, emitting the initialized
notification); any other response settles the matching PendingRequest, and
a response matching nothing is a no-op. -/
def handleHostMessage (st : McpAppsState) : HostMsg → McpAppsReaction
  | .notif _ method params =>
      if method == "ui/notifications/tool-input"
          || method == "ui/notifications/tool-input-partial" then
        let rd := { st.renderState with
          toolInput := (params.getField "arguments").orElse
            (fun _ => st.renderState.toolInput) }
        { state := { st with renderState := rd }, toWidget := [.renderData none rd] }
      else if method == "ui/notifications/tool-result" then
        let rd := { st.renderState with toolOutput := some params }
        { state := { st with renderState := rd }, toWidget := [.renderData none rd] }
      else if method == "ui/notifications/host-context-changed" then
        let rd := applyHostContext st.renderState params
        { state := { st with renderState := rd }, toWidget := [.renderData none rd] }
      else if method == "ui/notifications/tool-cancelled" then
        { state := st, toWidget := [.toolCancelled (params.getStr "reason")] }
      else
        { state := st }
  | .request _ id method _ =>
      if method == "ui/resource-teardown" then
        { state := st
          toHost := [.response "2.0" id (some (.obj [])) none]
          toWidget := [.teardown] }
      else
        { state := st }
  | .response _ id result error =>
      match st.phase with
      | .initializing initId =>
          if id = initId then
            match result with
            | some r =>
                let ctx := (r.getField "hostContext").getD (.obj [])
                let st' := { st with phase := .ready
                                     renderState := applyHostContext st.renderState ctx }
                { state := st'
                  toHost := [.notif "2.0" "ui/notifications/initialized" (.obj [])] }
            | none => { state := st }
          else { state := st }
      | _ =>
          match st.pendingRequests.find? (fun p => p.1 == id) with
          | some (_, mid) =>
              { state := { st with
                  pendingRequests := st.pendingRequests.filter (fun p => p.1 != id) }
                toWidget := [.messageResponse mid result (error.map errorOfJson)] }
          | none => { state := st }

/-- Modelled from the spec (§4.4): the per-request timeout timer firing.  If
the entry is still pending it is settled with the timeout error and
removed; if a reply already settled it, the timer is a no-op. -/
def handlePendingTimeout (st : McpAppsState) (id : Nat) : McpAppsReaction :=
  match st.pendingRequests.find? (fun p => p.1 == id) with
  | some (_, mid) =>
      { state := { st with
          pendingRequests := st.pendingRequests.filter (fun p => p.1 != id) }
        toWidget := [.messageResponse mid none (some timeoutError)] }
  | none => { state := st }

/-- Modelled from the spec: the fixed handshake timer firing.  If the
handshake is still outstanding the adapter gives up waiting and treats the
link as ready so traffic can flow; otherwise it is a no-op. -/
def handleHandshakeTimeout (st : McpAppsState) : McpAppsReaction :=
  match st.phase with
  | .initializing _ => { state := { st with phase := .ready } }
  | _ => { state := st }

/-- The events the JSON-RPC family adapter reacts to: widget messages, host
messages, per-request timeout timers, and the handshake timer. -/
inductive AdapterEv where
  | fromWidget (m : WidgetMsg)
  | fromHost (m : HostMsg)
  | requestTimeout (id : Nat)
  | handshakeTimeout
deriving Repr

/-- One step of the JSON-RPC family adapter. -/
def mcpAppsStep (cfg : McpAppsAdapterConfig) (st : McpAppsState) :
    AdapterEv → McpAppsReaction
  | .fromWidget m => handleMCPUIMessage cfg st m
  | .fromHost m => handleHostMessage st m
  | .requestTimeout id => handlePendingTimeout st id
  | .handshakeTimeout => handleHandshakeTimeout st

/-- Runs the JSON-RPC family adapter over a sequence of events, collecting
everything dispatched to the widget. -/
def mcpAppsRun (cfg : McpAppsAdapterConfig) (st : McpAppsState) :
    List AdapterEv → McpAppsState × List WidgetEvent
  | [] => (st, [])
  | e :: es =>
      let r := mcpAppsStep cfg st e
      let rest := mcpAppsRun cfg r.state es
      (rest.1, r.toWidget ++ rest.2)

/-- Counts `ui-message-received` acknowledgements for a given messageId. -/
def countAck (mid : String) : List WidgetEvent → Nat
  | [] => 0
  | e :: rest =>
      (match e with
       | .messageReceived m => if m == mid then 1 else 0
       | _ => 0) + countAck mid rest

/-- Counts terminal `ui-message-response` events for a given messageId. -/
def countResp (mid : String) : List WidgetEvent → Nat
  | [] => 0
  | e :: rest =>
      (match e with
       | .messageResponse m _ _ => if m == mid then 1 else 0
       | _ => 0) + countResp mid rest

/-- Events that can settle the PendingRequest with the given id: a host
reply whose id matches, or that request's timeout timer firing. -/
def isSettleFor (id : Nat) : AdapterEv → Bool
  | .fromHost (.response _ i _ _) => i == id
  | .requestTimeout i => i == id
  | _ => false

/-- Widget-originated events. -/
def isWidgetEv : AdapterEv → Bool
  | .fromWidget _ => true
  | _ => false

/-- The PendingRequest `(rid, mid)` is live: the link is ready, the entry
is in the table, it is the only entry under its id, and no other entry
answers to its messageId. -/
def PendingLive (rid : Nat) (mid : String) (s : McpAppsState) : Prop :=
  s.phase = .ready
    ∧ (rid, mid) ∈ s.pendingRequests
    ∧ (∀ p ∈ s.pendingRequests, p.1 = rid → p = (rid, mid))
    ∧ (∀ p ∈ s.pendingRequests, p.2 = mid → p.1 = rid)

/-- The PendingRequest `(rid, mid)` has been settled and removed: the link
is ready and no table entry carries its id or its messageId any more. -/
def PendingDone (rid : Nat) (mid : String) (s : McpAppsState) : Prop :=
  s.phase = .ready
    ∧ (∀ p ∈ s.pendingRequests, p.1 ≠ rid)
    ∧ (∀ p ∈ s.pendingRequests, p.2 ≠ mid)

theorem countResp_append (mid : String) (a b : List WidgetEvent) :
    countResp mid (a ++ b) = countResp mid a + countResp mid b := by
  induction a with
  | nil => simp [countResp]
  | cons e rest ih => simp [countResp, ih]; omega

theorem countAck_append (mid : String) (a b : List WidgetEvent) :
    countAck mid (a ++ b) = countAck mid a + countAck mid b := by
  induction a with
  | nil => simp [countAck]
  | cons e rest ih => simp [countAck, ih]; omega

/-! ## Settled properties -/

/-- C2: under the JSON-RPC family, sending the uniform message
`{type:"tool", messageId:"t1", payload:{toolName:"get_weather",
params:{city:"SF"}}}` makes the adapter emit to the host a JSON-RPC request
with jsonrpc `"2.0"`, a fresh numeric id (the monotonically increasing
counter's next value, distinct from every pending id), method
`"tools/call"`, and params exactly
`{name:"get_weather", arguments:{city:"SF"}}`. -/
theorem tool_message_translates_to_tools_call
    (cfg : McpAppsAdapterConfig) (st : McpAppsState)
    (hready : st.phase = .ready)
    (hids : ∀ p ∈ st.pendingRequests, p.1 < st.nextId) :
    (handleMCPUIMessage cfg st
        (.tool "t1" "get_weather" (.obj [("city", .str "SF")]))).toHost
      = [.request "2.0" st.nextId "tools/call"
          (.obj [("name", .str "get_weather"), ("arguments", .obj [("city", .str "SF")])])]
    ∧ (∀ p ∈ st.pendingRequests, p.1 ≠ st.nextId)
    ∧ (handleMCPUIMessage cfg st
        (.tool "t1" "get_weather" (.obj [("city", .str "SF")]))).state.nextId
      = st.nextId + 1 := by
  refine ⟨?_, ?_, ?_⟩
  · simp [handleMCPUIMessage, hready]
  · intro p hp
    exact Nat.ne_of_lt (hids p hp)
  · simp [handleMCPUIMessage, hready]

/-- Witness for C2 at the fresh session state. -/
theorem tool_message_translates_to_tools_call_witness :
    (handleMCPUIMessage {} { phase := .ready }
        (.tool "t1" "get_weather" (.obj [("city", .str "SF")]))).toHost
      = [.request "2.0" 0 "tools/call"
          (.obj [("name", .str "get_weather"), ("arguments", .obj [("city", .str "SF")])])] :=
  (tool_message_translates_to_tools_call {} { phase := .ready } rfl
    (by intro p hp; simp at hp)).1

/-- C3: under the capability family, sending the same uniform tool message
invokes the host's tool-call capability with arguments
`("get_weather", {city:"SF"})`; when the promise resolves with `{temp:70}`
(before the timeout), the adapter dispatches to the widget a
`message-response` carrying messageId `"t1"`, response `{temp:70}` and no
error. -/
theorem capability_tool_call_resolves_to_response
    (cfg : AppsSdkAdapterConfig) (oai : OpenAiApi)
    (f : String → JVal → PromiseOutcome) (t : Nat)
    (hf : oai.callTool = some f)
    (hres : f "get_weather" (.obj [("city", .str "SF")])
      = .resolved (.obj [("temp", .num 70)]) t)
    (ht : t < cfg.timeout) :
    (handleAppsSdkMessage cfg oai
        (.tool "t1" "get_weather" (.obj [("city", .str "SF")]))).toolCalls
      = [("get_weather", .obj [("city", .str "SF")])]
    ∧ (handleAppsSdkMessage cfg oai
        (.tool "t1" "get_weather" (.obj [("city", .str "SF")]))).dispatched
      = [⟨.messageReceived "t1", 0⟩,
         ⟨.messageResponse "t1" (some (.obj [("temp", .num 70)])) none, t⟩] := by
  constructor
  · simp [handleAppsSdkMessage, hf]
  · simp [handleAppsSdkMessage, hf, hres, settleRace, ht]

/-- Witness for C3 with a capability resolving at 5ms under the default
30000ms timeout. -/
theorem capability_tool_call_resolves_to_response_witness :
    (handleAppsSdkMessage {}
        { callTool := some (fun _ _ => .resolved (.obj [("temp", .num 70)]) 5) }
        (.tool "t1" "get_weather" (.obj [("city", .str "SF")]))).dispatched
      = [⟨.messageReceived "t1", 0⟩,
         ⟨.messageResponse "t1" (some (.obj [("temp", .num 70)])) none, 5⟩] :=
  (capability_tool_call_resolves_to_response {}
    { callTool := some (fun _ _ => .resolved (.obj [("temp", .num 70)]) 5) }
    (fun _ _ => .resolved (.obj [("temp", .num 70)]) 5) 5 rfl rfl (by decide)).2

/-- C7: under the capability family, if the host capability object is
absent at install time the adapter does not activate at all: it dispatches
no messages to the widget, raises no error (install is a total function
returning "not activated"), and leaves no partial state. -/
theorem absent_capability_object_means_no_activation
    (cfg : AppsSdkAdapterConfig) :
    installAppsSdkAdapter cfg none = (false, []) := rfl

/-- C8: under the capability family, every link action message is answered
with an UnsupportedCapability error delivered as a `message-response`
correlated with the request's messageId; no exception is thrown (the
handler totally evaluates to exactly an ack plus the error response) and no
host capability is invoked. -/
theorem link_message_yields_unsupported_capability_error
    (cfg : AppsSdkAdapterConfig) (oai : OpenAiApi) (mid url : String) :
    handleAppsSdkMessage cfg oai (.link mid url)
      = { toolCalls := [], followUpCalls := [],
          dispatched := [⟨.messageReceived mid, 0⟩,
            ⟨.messageResponse mid none (some (unsupportedError "Opening links")), 0⟩] }
    ∧ (unsupportedError "Opening links").name = some "UnsupportedCapability"
    ∧ (unsupportedError "Opening links").message
        = "Opening links is " ++ "not supported" ++ " by this host" := by
  refine ⟨rfl, rfl, rfl⟩

/-- C10: under the capability family, if the capability object is present
but its tool-invocation function (resp. follow-up-message function) is
undefined when a tool (resp. prompt) action message arrives, the adapter
answers that message with a `message-response` error whose message
indicates the operation is not supported — it neither throws (the handler
totally evaluates) nor leaves the request unanswered, and invokes no
capability. -/
theorem missing_capability_function_answered_with_error
    (cfg : AppsSdkAdapterConfig) (oai : OpenAiApi)
    (mid name prompt : String) (params : JVal) :
    (oai.callTool = none →
      handleAppsSdkMessage cfg oai (.tool mid name params)
        = { toolCalls := [], followUpCalls := [],
            dispatched := [⟨.messageReceived mid, 0⟩,
              ⟨.messageResponse mid none (some (unsupportedError "callTool")), 0⟩] })
    ∧ (oai.sendFollowUpMessage = none →
      handleAppsSdkMessage cfg oai (.prompt mid prompt)
        = { toolCalls := [], followUpCalls := [],
            dispatched := [⟨.messageReceived mid, 0⟩,
              ⟨.messageResponse mid none
                (some (unsupportedError "sendFollowUpMessage")), 0⟩] })
    ∧ (unsupportedError "callTool").message
        = "callTool is " ++ "not supported" ++ " by this host"
    ∧ (unsupportedError "sendFollowUpMessage").message
        = "sendFollowUpMessage is " ++ "not supported" ++ " by this host" := by
  refine ⟨?_, ?_, rfl, rfl⟩
  · intro h; simp [handleAppsSdkMessage, h]
  · intro h; simp [handleAppsSdkMessage, h]

/-- Witness for C10 at a capability object missing both functions. -/
theorem missing_capability_function_answered_with_error_witness :
    (handleAppsSdkMessage {} {} (.tool "m1" "test" (.obj [])) ).dispatched
      = [⟨.messageReceived "m1", 0⟩,
         ⟨.messageResponse "m1" none (some (unsupportedError "callTool")), 0⟩]
    ∧ (handleAppsSdkMessage {} {} (.prompt "m2" "test")).dispatched
      = [⟨.messageReceived "m2", 0⟩,
         ⟨.messageResponse "m2" none
           (some (unsupportedError "sendFollowUpMessage")), 0⟩] := by
  have h := missing_capability_function_answered_with_error {} {} "m1" "test" "test" (.obj [])
  have h' := missing_capability_function_answered_with_error {} {} "m2" "test" "test" (.obj [])
  exact ⟨by rw [h.1 rfl], by rw [h'.2.1 rfl]⟩

/-- C9: render-data reads are idempotent and local. In both families a
widget-initiated render-data request is answered synchronously from the
current RenderState, tagged with the requesting messageId, with no host
round trip (no JSON-RPC traffic, no capability invocation) and no state
change; any two such queries with no intervening state change return
identical RenderState contents, differing only in the echoed messageId. -/
theorem render_data_reads_idempotent_and_local :
    (∀ (cfg : McpAppsAdapterConfig) (st : McpAppsState) (m1 m2 : String),
      (handleMCPUIMessage cfg st (.requestRenderData m1)).toWidget
          = [.renderData (some m1) st.renderState]
        ∧ (handleMCPUIMessage cfg st (.requestRenderData m1)).toHost = []
        ∧ (handleMCPUIMessage cfg st (.requestRenderData m1)).state = st
        ∧ (handleMCPUIMessage cfg st (.requestRenderData m2)).toWidget
          = [.renderData (some m2) st.renderState])
    ∧ (∀ (cfg : AppsSdkAdapterConfig) (oai : OpenAiApi) (m1 m2 : String),
      (handleAppsSdkMessage cfg oai (.requestRenderData m1)).dispatched
          = [⟨.renderData (some m1) (readRenderData oai), 0⟩]
        ∧ (handleAppsSdkMessage cfg oai (.requestRenderData m1)).toolCalls = []
        ∧ (handleAppsSdkMessage cfg oai (.requestRenderData m1)).followUpCalls = []
        ∧ (handleAppsSdkMessage cfg oai (.requestRenderData m2)).dispatched
          = [⟨.renderData (some m2) (readRenderData oai), 0⟩]) := by
  exact ⟨fun _ _ _ _ => ⟨rfl, rfl, rfl, rfl⟩, fun _ _ _ _ => ⟨rfl, rfl, rfl, rfl⟩⟩

/-- C4: incoming host notifications mutate RenderState field-by-field, last
write wins per field, never a blanket overwrite.  After
`tool-input({arguments:q})` followed by `host-context-changed({theme:th})`
the state carries both the tool input and the theme with every other field
untouched; the render-data dispatched with the second notification, and
every subsequent render-data query, reflect both fields; and the two
notifications commute, since they touch different fields. -/
theorem render_state_merges_per_field (st : McpAppsState) (q : JVal) (th : String) :
    (((handleHostMessage
        (handleHostMessage st
          (.notif "2.0" "ui/notifications/tool-input" (.obj [("arguments", q)]))).state
        (.notif "2.0" "ui/notifications/host-context-changed"
          (.obj [("theme", .str th)]))).state).renderState
      = { st.renderState with toolInput := some q, theme := some th })
    ∧ ((handleHostMessage
        (handleHostMessage st
          (.notif "2.0" "ui/notifications/tool-input" (.obj [("arguments", q)]))).state
        (.notif "2.0" "ui/notifications/host-context-changed"
          (.obj [("theme", .str th)]))).toWidget
      = [.renderData none { st.renderState with toolInput := some q, theme := some th }])
    ∧ (∀ (cfg : McpAppsAdapterConfig) (mid : String),
      (handleMCPUIMessage cfg
        (handleHostMessage
          (handleHostMessage st
            (.notif "2.0" "ui/notifications/tool-input" (.obj [("arguments", q)]))).state
          (.notif "2.0" "ui/notifications/host-context-changed"
            (.obj [("theme", .str th)]))).state
        (.requestRenderData mid)).toWidget
      = [.renderData (some mid)
          { st.renderState with toolInput := some q, theme := some th }])
    ∧ (((handleHostMessage
        (handleHostMessage st
          (.notif "2.0" "ui/notifications/host-context-changed"
            (.obj [("theme", .str th)]))).state
        (.notif "2.0" "ui/notifications/tool-input"
          (.obj [("arguments", q)]))).state).renderState
      = { st.renderState with toolInput := some q, theme := some th }) := by
  refine ⟨?_, ?_, ?_, ?_⟩ <;>
    simp [handleHostMessage, handleMCPUIMessage, applyHostContext, mergeField,
      JVal.getField, JVal.getStr, JVal.getNum, List.find?]

/-- Helper for C5: whenever the race between a capability promise and the
configured timeout settles with the timeout error, the settlement time is
at least the configured duration. -/
theorem settleRace_timeout_le (cfg : AppsSdkAdapterConfig) (mid mid' : String)
    (g : JVal → JVal) (o : PromiseOutcome) (resp : Option JVal)
    (h : (settleRace cfg mid g o).ev = .messageResponse mid' resp (some timeoutError)) :
    cfg.timeout ≤ (settleRace cfg mid g o).time := by
  cases o with
  | resolved v t =>
      by_cases ht : t < cfg.timeout
      · simp [settleRace, ht] at h
      · simp [settleRace, ht]
  | rejected msg t =>
      by_cases ht : t < cfg.timeout
      · simp [settleRace, ht, timeoutError] at h
      · simp [settleRace, ht]
  | pendingForever => simp [settleRace]

/-- C5: for every outbound call under the capability family, a timeout
error `message-response` is never dispatched strictly before the configured
timeout has elapsed since the call was issued: every dispatched timeout
error carries a dispatch time at or after `cfg.timeout` (in particular,
with a 1000ms timeout and no host reply, the timeout error is produced at
or after 1000ms, never before). -/
theorem timeout_error_never_early
    (cfg : AppsSdkAdapterConfig) (oai : OpenAiApi) (m : WidgetMsg)
    (d : TimedEvent) (mid : String) (resp : Option JVal)
    (hd : d ∈ (handleAppsSdkMessage cfg oai m).dispatched)
    (he : d.ev = .messageResponse mid resp (some timeoutError)) :
    cfg.timeout ≤ d.time := by
  cases m with
  | tool mid' name params =>
      cases hct : oai.callTool with
      | none =>
          simp [handleAppsSdkMessage, hct] at hd
          rcases hd with h1 | h1 <;> rw [h1] at he ⊢ <;>
            simp [timeoutError, unsupportedError] at he
      | some f =>
          simp [handleAppsSdkMessage, hct] at hd
          rcases hd with h1 | h1
          · rw [h1] at he; simp at he
          · rw [h1] at he ⊢; exact settleRace_timeout_le cfg mid' mid _ _ resp he
  | prompt mid' p =>
      cases hfu : oai.sendFollowUpMessage with
      | none =>
          simp [handleAppsSdkMessage, hfu] at hd
          rcases hd with h1 | h1 <;> rw [h1] at he ⊢ <;>
            simp [timeoutError, unsupportedError] at he
      | some f =>
          simp [handleAppsSdkMessage, hfu] at hd
          rcases hd with h1 | h1
          · rw [h1] at he; simp at he
          · rw [h1] at he ⊢; exact settleRace_timeout_le cfg mid' mid _ _ resp he
  | intent mid' intentName params =>
      by_cases hig : cfg.intentHandling == "ignore"
      · simp [handleAppsSdkMessage, hig] at hd
        rcases hd with h1 | h1 <;> rw [h1] at he <;> simp at he
      · cases hfu : oai.sendFollowUpMessage with
        | none =>
            simp [handleAppsSdkMessage, hig, hfu] at hd
            rcases hd with h1 | h1 <;> rw [h1] at he ⊢ <;>
              simp [timeoutError, unsupportedError] at he
        | some f =>
            simp [handleAppsSdkMessage, hig, hfu] at hd
            rcases hd with h1 | h1
            · rw [h1] at he; simp at he
            · rw [h1] at he ⊢; exact settleRace_timeout_le cfg mid' mid _ _ resp he
  | notify mid' msg =>
      simp [handleAppsSdkMessage] at hd
      rcases hd with h1 | h1 <;> rw [h1] at he <;> simp at he
  | link mid' url =>
      simp [handleAppsSdkMessage] at hd
      rcases hd with h1 | h1 <;> rw [h1] at he ⊢ <;>
        simp [timeoutError, unsupportedError] at he
  | sizeChange w h' => simp [handleAppsSdkMessage] at hd
  | requestRenderData mid' =>
      simp [handleAppsSdkMessage] at hd
      rw [hd] at he; simp at he
  | iframeReady =>
      simp [handleAppsSdkMessage] at hd
      rw [hd] at he; simp at he

/-- Witness for C5: a 1000ms timeout with a never-settling tool capability
produces the timeout error exactly at 1000ms, which is not before 1000ms. -/
theorem timeout_error_never_early_witness :
    (⟨.messageResponse "x" none (some timeoutError), 1000⟩ : TimedEvent)
        ∈ (handleAppsSdkMessage { timeout := 1000 }
            { callTool := some (fun _ _ => .pendingForever) }
            (.tool "x" "slow_tool" (.obj []))).dispatched
    ∧ (1000 : Nat) ≤ 1000 := by
  refine ⟨?_, ?_⟩
  · simp [handleAppsSdkMessage, settleRace]
  · exact timeout_error_never_early { timeout := 1000 }
      { callTool := some (fun _ _ => .pendingForever) }
      (.tool "x" "slow_tool" (.obj [])) ⟨.messageResponse "x" none (some timeoutError), 1000⟩
      "x" none (by simp [handleAppsSdkMessage, settleRace]) rfl

/-- C6: the JSON-RPC-family handshake never blocks indefinitely.  From the
INITIALIZING state the adapter reaches READY either on a successful
response matching the initialize request's id — capturing the result's host
context into RenderState and emitting the `initialized` notification — or
on the handshake timer elapsing; and once the timer has fired, action
traffic flows: a tool message is translated and sent to the host. -/
theorem handshake_never_blocks_indefinitely
    (st : McpAppsState) (i : Nat) (r : JVal)
    (h : st.phase = .initializing i) :
    ((handleHostMessage st (.response "2.0" i (some r) none)).state.phase = .ready
      ∧ (handleHostMessage st (.response "2.0" i (some r) none)).state.renderState
          = applyHostContext st.renderState ((r.getField "hostContext").getD (.obj []))
      ∧ (handleHostMessage st (.response "2.0" i (some r) none)).toHost
          = [.notif "2.0" "ui/notifications/initialized" (.obj [])])
    ∧ ((handleHandshakeTimeout st).state.phase = .ready
      ∧ ∀ (cfg : McpAppsAdapterConfig) (mid name : String) (params : JVal),
          (handleMCPUIMessage cfg (handleHandshakeTimeout st).state
              (.tool mid name params)).toHost
            = [.request "2.0" st.nextId "tools/call"
                (.obj [("name", .str name), ("arguments", params)])]) := by
  refine ⟨⟨?_, ?_, ?_⟩, ?_, ?_⟩ <;>
    simp [handleHostMessage, handleHandshakeTimeout, handleMCPUIMessage, h]

/-- Witness for C6 at the freshly installed session (INITIALIZING with
request id 0): both the matching response and the handshake timer lead to
READY. -/
theorem handshake_never_blocks_indefinitely_witness :
    (handleHostMessage (installMcpAppsAdapter {}).1
        (.response "2.0" 0
          (some (.obj [("hostContext", .obj [("theme", .str "dark")])])) none)).state.phase
      = .ready
    ∧ (handleHandshakeTimeout (installMcpAppsAdapter {}).1).state.phase = .ready := by
  have h := handshake_never_blocks_indefinitely (installMcpAppsAdapter {}).1 0
    (.obj [("hostContext", .obj [("theme", .str "dark")])]) rfl
  exact ⟨h.1.1, h.2.1⟩

/-- A live PendingRequest is what the id-keyed lookup finds. -/
theorem find_pending_of_live (rid : Nat) (mid : String) (s : McpAppsState)
    (h : PendingLive rid mid s) :
    s.pendingRequests.find? (fun p => p.1 == rid) = some (rid, mid) := by
  rcases h with ⟨-, hmem, huniq, -⟩
  cases hf : s.pendingRequests.find? (fun p => p.1 == rid) with
  | none =>
      have := List.find?_eq_none.mp hf (rid, mid) hmem
      simp at this
  | some q =>
      have hq1 := List.find?_some hf
      have hqmem : q ∈ s.pendingRequests := List.mem_of_find?_eq_some hf
      exact congrArg some (huniq q hqmem (by simpa using hq1))

/-- Host notifications leave the pending table and phase untouched and
dispatch neither responses nor acks. -/
theorem notif_reaction_frame (mid : String) (s : McpAppsState)
    (jr method : String) (params : JVal) :
    (handleHostMessage s (.notif jr method params)).state.pendingRequests
        = s.pendingRequests
    ∧ (handleHostMessage s (.notif jr method params)).state.phase = s.phase
    ∧ countResp mid (handleHostMessage s (.notif jr method params)).toWidget = 0
    ∧ countAck mid (handleHostMessage s (.notif jr method params)).toWidget = 0 := by
  simp only [handleHostMessage]
  split_ifs <;> simp [countResp, countAck]

/-- Host requests leave the whole state untouched and dispatch neither
responses nor acks. -/
theorem request_reaction_frame (mid : String) (s : McpAppsState)
    (jr : String) (id : Nat) (method : String) (params : JVal) :
    (handleHostMessage s (.request jr id method params)).state = s
    ∧ countResp mid (handleHostMessage s (.request jr id method params)).toWidget = 0
    ∧ countAck mid (handleHostMessage s (.request jr id method params)).toWidget = 0 := by
  simp only [handleHostMessage]
  split_ifs <;> simp [countResp, countAck]

/-- When the id-keyed lookup finds an entry, both settle paths (reply with
matching id, timeout timer) remove every entry under that id and dispatch
exactly the settlement response for the entry's messageId. -/
theorem settle_reaction_found (s : McpAppsState) (id : Nat) (q : Nat × String)
    (hph : s.phase = .ready)
    (hf : s.pendingRequests.find? (fun p => p.1 == id) = some q) :
    ((handlePendingTimeout s id).state
        = { s with pendingRequests := s.pendingRequests.filter (fun p => p.1 != id) }
      ∧ (handlePendingTimeout s id).toWidget
        = [.messageResponse q.2 none (some timeoutError)])
    ∧ ∀ (jr : String) (result error : Option JVal),
      (handleHostMessage s (.response jr id result error)).state
        = { s with pendingRequests := s.pendingRequests.filter (fun p => p.1 != id) }
      ∧ (handleHostMessage s (.response jr id result error)).toWidget
        = [.messageResponse q.2 result (error.map errorOfJson)] := by
  constructor
  · constructor <;> simp [handlePendingTimeout, hf]
  · intro jr result error
    constructor <;> simp [handleHostMessage, hph, hf]

/-- When the id-keyed lookup finds nothing, both settle paths are complete
no-ops. -/
theorem settle_reaction_missing (s : McpAppsState) (id : Nat)
    (hph : s.phase = .ready)
    (hf : s.pendingRequests.find? (fun p => p.1 == id) = none) :
    (handlePendingTimeout s id = { state := s })
    ∧ ∀ (jr : String) (result error : Option JVal),
      handleHostMessage s (.response jr id result error) = { state := s } := by
  constructor
  · simp [handlePendingTimeout, hf]
  · intro jr result error
    simp [handleHostMessage, hph, hf]

/-- Once a PendingRequest is settled and removed, no later non-widget event
can produce another response for its messageId. -/
theorem run_countResp_zero_of_done (cfg : McpAppsAdapterConfig) (rid : Nat) (mid : String)
    (evs : List AdapterEv) (s : McpAppsState)
    (hdone : PendingDone rid mid s)
    (hw : ∀ e ∈ evs, isWidgetEv e = false) :
    countResp mid (mcpAppsRun cfg s evs).2 = 0 := by
  induction evs generalizing s with
  | nil => simp [mcpAppsRun, countResp]
  | cons e es ih =>
      rcases hdone with ⟨hph, hid, hm⟩
      have hwe := hw e (List.mem_cons_self _ _)
      have hwes : ∀ e' ∈ es, isWidgetEv e' = false :=
        fun e' he' => hw e' (List.mem_cons_of_mem _ he')
      have key : countResp mid (mcpAppsStep cfg s e).toWidget = 0
          ∧ PendingDone rid mid (mcpAppsStep cfg s e).state := by
        cases e with
        | fromWidget m => simp [isWidgetEv] at hwe
        | handshakeTimeout =>
            have hstep : mcpAppsStep cfg s .handshakeTimeout = { state := s } := by
              simp [mcpAppsStep, handleHandshakeTimeout, hph]
            rw [hstep]
            exact ⟨by simp [countResp], hph, hid, hm⟩
        | requestTimeout id =>
            cases hf : s.pendingRequests.find? (fun p => p.1 == id) with
            | none =>
                have hstep := (settle_reaction_missing s id hph hf).1
                simp only [mcpAppsStep]
                rw [hstep]
                exact ⟨by simp [countResp], hph, hid, hm⟩
            | some q =>
                have hr := (settle_reaction_found s id q hph hf).1
                have hq2 : q.2 ≠ mid := hm q (List.mem_of_find?_eq_some hf)
                simp only [mcpAppsStep]
                rw [hr.1, hr.2]
                refine ⟨by simp [countResp, beq_eq_false_iff_ne.mpr hq2], hph, ?_, ?_⟩ <;>
                  intro p hp
                · exact hid p (List.mem_filter.mp hp).1
                · exact hm p (List.mem_filter.mp hp).1
        | fromHost hmsg =>
            cases hmsg with
            | notif jr method params =>
                have hfr := notif_reaction_frame mid s jr method params
                refine ⟨hfr.2.2.1, ?_, ?_, ?_⟩
                · rw [show (mcpAppsStep cfg s (.fromHost (.notif jr method params))).state.phase
                      = s.phase from hfr.2.1]
                  exact hph
                · intro p hp
                  exact hid p (by rw [← hfr.1]; exact hp)
                · intro p hp
                  exact hm p (by rw [← hfr.1]; exact hp)
            | request jr id method params =>
                have hfr := request_reaction_frame mid s jr id method params
                simp only [mcpAppsStep]
                rw [hfr.1]
                exact ⟨hfr.2.1, hph, hid, hm⟩
            | response jr id result error =>
                cases hf : s.pendingRequests.find? (fun p => p.1 == id) with
                | none =>
                    have hstep := (settle_reaction_missing s id hph hf).2 jr result error
                    simp only [mcpAppsStep]
                    rw [hstep]
                    exact ⟨by simp [countResp], hph, hid, hm⟩
                | some q =>
                    have hr := (settle_reaction_found s id q hph hf).2 jr result error
                    have hq2 : q.2 ≠ mid := hm q (List.mem_of_find?_eq_some hf)
                    simp only [mcpAppsStep]
                    rw [hr.1, hr.2]
                    refine ⟨by simp [countResp, beq_eq_false_iff_ne.mpr hq2], hph, ?_, ?_⟩ <;>
                      intro p hp
                    · exact hid p (List.mem_filter.mp hp).1
                    · exact hm p (List.mem_filter.mp hp).1
      simp only [mcpAppsRun, countResp_append]
      rw [key.1, ih _ key.2 hwes]

/-- Non-widget events never dispatch a `message-received` ack. -/
theorem run_countAck_zero (cfg : McpAppsAdapterConfig) (mid : String)
    (evs : List AdapterEv) (s : McpAppsState)
    (hw : ∀ e ∈ evs, isWidgetEv e = false) :
    countAck mid (mcpAppsRun cfg s evs).2 = 0 := by
  induction evs generalizing s with
  | nil => simp [mcpAppsRun, countAck]
  | cons e es ih =>
      have hwe := hw e (List.mem_cons_self _ _)
      have hwes : ∀ e' ∈ es, isWidgetEv e' = false :=
        fun e' he' => hw e' (List.mem_cons_of_mem _ he')
      have key : countAck mid (mcpAppsStep cfg s e).toWidget = 0 := by
        cases e with
        | fromWidget m => simp [isWidgetEv] at hwe
        | handshakeTimeout =>
            rcases hp : s.phase <;>
              simp [mcpAppsStep, handleHandshakeTimeout, hp, countAck]
        | requestTimeout id =>
            cases hf : s.pendingRequests.find? (fun p => p.1 == id) with
            | none => simp [mcpAppsStep, handlePendingTimeout, hf, countAck]
            | some q => simp [mcpAppsStep, handlePendingTimeout, hf, countAck]
        | fromHost hmsg =>
            cases hmsg with
            | notif jr method params =>
                exact (notif_reaction_frame mid s jr method params).2.2.2
            | request jr id method params =>
                exact (request_reaction_frame mid s jr id method params).2.2
            | response jr id result error =>
                rcases hp : s.phase with _ | initId | _
                · cases hf : s.pendingRequests.find? (fun p => p.1 == id) with
                  | none => simp [mcpAppsStep, handleHostMessage, hp, hf, countAck]
                  | some q => simp [mcpAppsStep, handleHostMessage, hp, hf, countAck]
                · by_cases hie : id = initId
                  · cases result with
                    | none => simp [mcpAppsStep, handleHostMessage, hp, hie, countAck]
                    | some r => simp [mcpAppsStep, handleHostMessage, hp, hie, countAck]
                  · simp [mcpAppsStep, handleHostMessage, hp, hie, countAck]
                · cases hf : s.pendingRequests.find? (fun p => p.1 == id) with
                  | none => simp [mcpAppsStep, handleHostMessage, hp, hf, countAck]
                  | some q => simp [mcpAppsStep, handleHostMessage, hp, hf, countAck]
      simp only [mcpAppsRun, countAck_append]
      rw [key, ih _ hwes]

/-- The heart of C1: while a PendingRequest is live, the first settle event
for its id (host reply or timeout, whichever comes first) produces exactly
one response for its messageId; every other event produces none, and after
settlement every further settle attempt is a no-op. -/
theorem run_countResp_one_of_live (cfg : McpAppsAdapterConfig) (rid : Nat) (mid : String)
    (evs : List AdapterEv) (s : McpAppsState)
    (hlive : PendingLive rid mid s)
    (hw : ∀ e ∈ evs, isWidgetEv e = false)
    (hs : ∃ e ∈ evs, isSettleFor rid e = true) :
    countResp mid (mcpAppsRun cfg s evs).2 = 1 := by
  induction evs generalizing s with
  | nil => simp at hs
  | cons e es ih =>
      have hph := hlive.1
      have hwe := hw e (List.mem_cons_self _ _)
      have hwes : ∀ e' ∈ es, isWidgetEv e' = false :=
        fun e' he' => hw e' (List.mem_cons_of_mem _ he')
      have hfind := find_pending_of_live rid mid s hlive
      by_cases hset : isSettleFor rid e = true
      · have hdone : PendingDone rid mid
            { s with pendingRequests :=
                s.pendingRequests.filter (fun p => p.1 != rid) } := by
          refine ⟨hph, ?_, ?_⟩ <;> intro p hp
          · have := List.mem_filter.mp hp
            exact bne_iff_ne.mp this.2
          · intro hpm
            have hmem := List.mem_filter.mp hp
            have := hlive.2.2.2 p hmem.1 hpm
            exact absurd this (bne_iff_ne.mp hmem.2)
        cases e with
        | fromWidget m => simp [isWidgetEv] at hwe
        | handshakeTimeout => simp [isSettleFor] at hset
        | requestTimeout id =>
            have hide : id = rid := by simpa [isSettleFor] using hset
            subst hide
            have hr := (settle_reaction_found s id (id, mid) hph hfind).1
            simp only [mcpAppsRun, countResp_append, mcpAppsStep]
            rw [hr.1, hr.2]
            rw [run_countResp_zero_of_done cfg id mid es _ hdone hwes]
            simp [countResp]
        | fromHost hmsg =>
            cases hmsg with
            | notif jr method params => simp [isSettleFor] at hset
            | request jr id method params => simp [isSettleFor] at hset
            | response jr id result error =>
                have hide : id = rid := by simpa [isSettleFor] using hset
                subst hide
                have hr := (settle_reaction_found s id (id, mid) hph hfind).2 jr result error
                simp only [mcpAppsRun, countResp_append, mcpAppsStep]
                rw [hr.1, hr.2]
                rw [run_countResp_zero_of_done cfg id mid es _ hdone hwes]
                simp [countResp]
      · have hs' : ∃ e' ∈ es, isSettleFor rid e' = true := by
          rcases hs with ⟨e', he', hse⟩
          rcases List.mem_cons.mp he' with rfl | h
          · exact absurd hse hset
          · exact ⟨e', h, hse⟩
        have key : countResp mid (mcpAppsStep cfg s e).toWidget = 0
            ∧ PendingLive rid mid (mcpAppsStep cfg s e).state := by
          cases e with
          | fromWidget m => simp [isWidgetEv] at hwe
          | handshakeTimeout =>
              have hstep : mcpAppsStep cfg s .handshakeTimeout = { state := s } := by
                simp [mcpAppsStep, handleHandshakeTimeout, hph]
              rw [hstep]
              exact ⟨by simp [countResp], hlive⟩
          | requestTimeout id =>
              have hne : id ≠ rid := by simpa [isSettleFor] using hset
              cases hf : s.pendingRequests.find? (fun p => p.1 == id) with
              | none =>
                  have hstep := (settle_reaction_missing s id hph hf).1
                  simp only [mcpAppsStep]
                  rw [hstep]
                  exact ⟨by simp [countResp], hlive⟩
              | some q =>
                  have hr := (settle_reaction_found s id q hph hf).1
                  have hq1 : q.1 = id := by simpa using List.find?_some hf
                  have hq2 : q.2 ≠ mid := by
                    intro hqm
                    have := hlive.2.2.2 q (List.mem_of_find?_eq_some hf) hqm
                    exact hne (hq1 ▸ this)
                  simp only [mcpAppsStep]
                  rw [hr.1, hr.2]
                  refine ⟨by simp [countResp, beq_eq_false_iff_ne.mpr hq2],
                    hph, ?_, ?_, ?_⟩
                  · exact List.mem_filter.mpr ⟨hlive.2.1,
                      bne_iff_ne.mpr (fun hcon => hne hcon.symm)⟩
                  · intro p hp
                    exact hlive.2.2.1 p (List.mem_filter.mp hp).1
                  · intro p hp
                    exact hlive.2.2.2 p (List.mem_filter.mp hp).1
          | fromHost hmsg =>
              cases hmsg with
              | notif jr method params =>
                  have hfr := notif_reaction_frame mid s jr method params
                  refine ⟨hfr.2.2.1, ?_, ?_, ?_, ?_⟩
                  · rw [show (mcpAppsStep cfg s
                        (.fromHost (.notif jr method params))).state.phase
                        = s.phase from hfr.2.1]
                    exact hph
                  · rw [show (mcpAppsStep cfg s
                        (.fromHost (.notif jr method params))).state.pendingRequests
                        = s.pendingRequests from hfr.1]
                    exact hlive.2.1
                  · intro p hp
                    exact hlive.2.2.1 p (by rw [← hfr.1]; exact hp)
                  · intro p hp
                    exact hlive.2.2.2 p (by rw [← hfr.1]; exact hp)
              | request jr id method params =>
                  have hfr := request_reaction_frame mid s jr id method params
                  simp only [mcpAppsStep]
                  rw [hfr.1]
                  exact ⟨hfr.2.1, hlive⟩
              | response jr id result error =>
                  have hne : id ≠ rid := by simpa [isSettleFor] using hset
                  cases hf : s.pendingRequests.find? (fun p => p.1 == id) with
                  | none =>
                      have hstep := (settle_reaction_missing s id hph hf).2 jr result error
                      simp only [mcpAppsStep]
                      rw [hstep]
                      exact ⟨by simp [countResp], hlive⟩
                  | some q =>
                      have hr := (settle_reaction_found s id q hph hf).2 jr result error
                      have hq1 : q.1 = id := by simpa using List.find?_some hf
                      have hq2 : q.2 ≠ mid := by
                        intro hqm
                        have := hlive.2.2.2 q (List.mem_of_find?_eq_some hf) hqm
                        exact hne (hq1 ▸ this)
                      simp only [mcpAppsStep]
                      rw [hr.1, hr.2]
                      refine ⟨by simp [countResp, beq_eq_false_iff_ne.mpr hq2],
                        hph, ?_, ?_, ?_⟩
                      · exact List.mem_filter.mpr ⟨hlive.2.1,
                          bne_iff_ne.mpr (fun hcon => hne hcon.symm)⟩
                      · intro p hp
                        exact hlive.2.2.1 p (List.mem_filter.mp hp).1
                      · intro p hp
                        exact hlive.2.2.2 p (List.mem_filter.mp hp).1
        simp only [mcpAppsRun, countResp_append]
        rw [key.1, ih _ key.2 hwes hs']

/-- The race settlement is always a `message-response` correlated with the
request's messageId. -/
theorem settleRace_ev_shape (cfg : AppsSdkAdapterConfig) (mid : String)
    (g : JVal → JVal) (o : PromiseOutcome) :
    ∃ resp err, (settleRace cfg mid g o).ev = .messageResponse mid resp err := by
  cases o with
  | resolved v t =>
      by_cases ht : t < cfg.timeout <;> simp [settleRace, ht]
  | rejected msg t =>
      by_cases ht : t < cfg.timeout <;> simp [settleRace, ht]
  | pendingForever => simp [settleRace]

/-- Under the capability family, every action message carrying a messageId
is answered with exactly one ack and exactly one response. -/
theorem cap_action_counts (acfg : AppsSdkAdapterConfig) (oai : OpenAiApi)
    (amid tn pr iname url nmsg : String) (prm : JVal) (m : WidgetMsg)
    (hm : m = .tool amid tn prm ∨ m = .prompt amid pr ∨ m = .intent amid iname prm
      ∨ m = .link amid url ∨ m = .notify amid nmsg) :
    countAck amid ((handleAppsSdkMessage acfg oai m).dispatched.map TimedEvent.ev) = 1
    ∧ countResp amid ((handleAppsSdkMessage acfg oai m).dispatched.map TimedEvent.ev) = 1 := by
  rcases hm with rfl | rfl | rfl | rfl | rfl
  · cases hct : oai.callTool with
    | none => simp [handleAppsSdkMessage, hct, countAck, countResp]
    | some f =>
        obtain ⟨resp, err, hev⟩ := settleRace_ev_shape acfg amid (fun v => v) (f tn prm)
        simp [handleAppsSdkMessage, hct, countAck, countResp, hev]
  · cases hfu : oai.sendFollowUpMessage with
    | none => simp [handleAppsSdkMessage, hfu, countAck, countResp]
    | some f =>
        obtain ⟨resp, err, hev⟩ := settleRace_ev_shape acfg amid
          (fun _ => .obj [("success", .bool true)]) (f (.obj [("prompt", .str pr)]))
        simp [handleAppsSdkMessage, hfu, countAck, countResp, hev]
  · by_cases hig : acfg.intentHandling == "ignore"
    · simp [handleAppsSdkMessage, hig, countAck, countResp]
    · cases hfu : oai.sendFollowUpMessage with
      | none => simp [handleAppsSdkMessage, hig, hfu, countAck, countResp]
      | some f =>
          obtain ⟨resp, err, hev⟩ := settleRace_ev_shape acfg amid
            (fun _ => .obj [("success", .bool true)])
            (f (.obj [("prompt", .str (intentPromptText iname prm))]))
          simp [handleAppsSdkMessage, hig, hfu, countAck, countResp, hev]
  · simp [handleAppsSdkMessage, countAck, countResp]
  · simp [handleAppsSdkMessage, countAck, countResp]

/-- Counterexample to C1 as frozen: under the JSON-RPC family the notify
action is notification-only (§4.2) — sent while ready with messageId
`"n1"` it produces zero `message-received` acks (never one), its handling
dispatches nothing to the widget, and no `message-response` for `"n1"` is
ever produced, even after a host reply and a timer fire. -/
theorem jsonrpc_notify_no_ack_no_response :
    countAck "n1"
        (handleMCPUIMessage {} { phase := .ready } (.notify "n1" "hello")).toWidget = 0
    ∧ (handleMCPUIMessage {} { phase := .ready } (.notify "n1" "hello")).toWidget = []
    ∧ countResp "n1"
        (mcpAppsRun {}
          (handleMCPUIMessage {} { phase := .ready } (.notify "n1" "hello")).state
          [.fromHost (.response "2.0" 0 (some (.obj [])) none),
           .requestTimeout 0]).2 = 0 := by
  refine ⟨rfl, rfl, ?_⟩
  simp [handleMCPUIMessage, mcpAppsRun, mcpAppsStep, handleHostMessage,
    handlePendingTimeout, countResp]

/-- Under the JSON-RPC family the four requestful actions (tool, prompt,
intent, link) share one shape: an immediate ack for their messageId plus a
new PendingRequest under the fresh id. -/
theorem requestful_step_shape (cfg : McpAppsAdapterConfig) (st : McpAppsState)
    (mid name pr iname url : String) (params : JVal) (m : WidgetMsg)
    (hm : m = .tool mid name params ∨ m = .prompt mid pr
      ∨ m = .intent mid iname params ∨ m = .link mid url)
    (hready : st.phase = .ready) :
    (handleMCPUIMessage cfg st m).state
      = { st with nextId := st.nextId + 1
                  pendingRequests := (st.nextId, mid) :: st.pendingRequests }
    ∧ (handleMCPUIMessage cfg st m).toWidget = [.messageReceived mid] := by
  rcases hm with rfl | rfl | rfl | rfl <;>
    exact ⟨by simp [handleMCPUIMessage, hready], by simp [handleMCPUIMessage, hready]⟩

/-- C1 (amended): for every outbound action message carrying a messageId —
except the notification-only notify action under the JSON-RPC family,
which receives neither ack nor response there — the adapter produces
exactly one `message-received` ack and exactly one terminal
`message-response` for that messageId.  Under the JSON-RPC family each
requestful action (tool, prompt, intent, link) creates a PendingRequest
that is settled exactly once by whichever of {matching host reply, timeout
timer} occurs first over any following host/timer trace containing at
least one settle event — the losing path is a no-op producing no second
response — and no further ack is ever produced.  Under the capability
family every action message (tool, prompt, intent, link, notify) is
answered with exactly one ack and exactly one response. -/
theorem action_message_settled_exactly_once
    (cfg : McpAppsAdapterConfig) (st : McpAppsState)
    (mid name pr iname url : String) (params : JVal) (m : WidgetMsg)
    (evs : List AdapterEv)
    (hm : m = .tool mid name params ∨ m = .prompt mid pr
      ∨ m = .intent mid iname params ∨ m = .link mid url)
    (hready : st.phase = .ready)
    (hmid : ∀ p ∈ st.pendingRequests, p.2 ≠ mid)
    (hids : ∀ p ∈ st.pendingRequests, p.1 < st.nextId)
    (hw : ∀ e ∈ evs, isWidgetEv e = false)
    (hs : ∃ e ∈ evs, isSettleFor st.nextId e = true) :
    (countAck mid (handleMCPUIMessage cfg st m).toWidget = 1
      ∧ countResp mid (handleMCPUIMessage cfg st m).toWidget = 0
      ∧ countResp mid
          (mcpAppsRun cfg (handleMCPUIMessage cfg st m).state evs).2 = 1
      ∧ countAck mid
          (mcpAppsRun cfg (handleMCPUIMessage cfg st m).state evs).2 = 0)
    ∧ (∀ (acfg : AppsSdkAdapterConfig) (oai : OpenAiApi)
        (amid tn apr aname aurl nmsg : String) (prm : JVal) (am : WidgetMsg),
        (am = .tool amid tn prm ∨ am = .prompt amid apr ∨ am = .intent amid aname prm
          ∨ am = .link amid aurl ∨ am = .notify amid nmsg) →
        countAck amid ((handleAppsSdkMessage acfg oai am).dispatched.map TimedEvent.ev) = 1
        ∧ countResp amid ((handleAppsSdkMessage acfg oai am).dispatched.map TimedEvent.ev) = 1) := by
  have hshape := requestful_step_shape cfg st mid name pr iname url params m hm hready
  have hlive : PendingLive st.nextId mid (handleMCPUIMessage cfg st m).state := by
    rw [hshape.1]
    refine ⟨hready, List.mem_cons_self _ _, ?_, ?_⟩ <;> intro p hp
    · rcases List.mem_cons.mp hp with rfl | hp'
      · intro _; rfl
      · intro hp1
        exact absurd hp1 (Nat.ne_of_lt (hids p hp'))
    · rcases List.mem_cons.mp hp with rfl | hp'
      · intro _; rfl
      · intro hp2
        exact absurd hp2 (hmid p hp')
  refine ⟨⟨?_, ?_, ?_, ?_⟩, ?_⟩
  · rw [hshape.2]; simp [countAck]
  · rw [hshape.2]; simp [countResp]
  · exact run_countResp_one_of_live cfg st.nextId mid evs _ hlive hw hs
  · exact run_countAck_zero cfg mid evs _ hw
  · intro acfg oai amid tn apr aname aurl nmsg prm am ham
    exact cap_action_counts acfg oai amid tn apr aname aurl nmsg prm am ham

/-- Witness for C1 (amended): a fresh ready session, one prompt call, then
the matching host reply followed by that request's own timeout timer — the
reply settles the call, the timer is a no-op, and exactly one ack and one
response reach the widget. -/
theorem action_message_settled_exactly_once_witness :
    countAck "p1"
        (handleMCPUIMessage {} { phase := .ready } (.prompt "p1" "hi")).toWidget = 1
    ∧ countResp "p1"
        (mcpAppsRun {}
          (handleMCPUIMessage {} { phase := .ready } (.prompt "p1" "hi")).state
          [.fromHost (.response "2.0" 0 (some (.obj [("ok", .bool true)])) none),
           .requestTimeout 0]).2 = 1 := by
  have h := action_message_settled_exactly_once {} { phase := .ready }
    "p1" "x" "hi" "i" "u" (.obj []) (.prompt "p1" "hi")
    [.fromHost (.response "2.0" 0 (some (.obj [("ok", .bool true)])) none),
     .requestTimeout 0]
    (Or.inr (Or.inl rfl))
    rfl (by intro p hp; simp at hp) (by intro p hp; simp at hp)
    (by simp [isWidgetEv])
    ⟨.requestTimeout 0, by simp, by simp [isSettleFor]⟩
  exact ⟨h.1.1, h.1.2.2.1⟩

end McpUi
